import Mathlib

/-!
Verification development for the Test-python repository: shallow embedding of
the BirdEye and DexScreener client modules (src/birdeye.py, src/dexscreener.py)
and proofs about the claims of the specification.

Numeric conventions: Python `Decimal` values and JSON numeric fields are
modelled as `ℚ` (arbitrary-precision rationals).  Python `float(x)`
(IEEE-754 binary64 conversion) is modelled by `pyFloat`, a round-to-nearest,
ties-to-even rounding to 53 significant bits; overflow and subnormal ranges
are outside the magnitudes handled by this code and are not modelled.
-/

deriving instance DecidableEq for Except

/-- Fuel-driven floor of the base-2 logarithm of a natural number
(`log2fuel fuel n = ⌊log₂ n⌋` whenever `fuel ≥ log₂ n`, with value `0` for
`n ≤ 1`).  Structural recursion on the fuel keeps it kernel-reducible. -/
def log2fuel : ℕ → ℕ → ℕ
  | 0, _ => 0
  | fuel + 1, n => if n ≤ 1 then 0 else log2fuel fuel (n / 2) + 1

/-- Fuel-driven ceiling of the base-2 logarithm of a natural number
(smallest `k` with `n ≤ 2 ^ k`, for `n ≥ 1`). -/
def clog2fuel : ℕ → ℕ → ℕ
  | 0, _ => 0
  | fuel + 1, n => if n ≤ 1 then 0 else clog2fuel fuel ((n + 1) / 2) + 1

/-- Floor of the base-2 logarithm of a positive rational, as an integer.
For `q ≥ 1` this is `⌊log₂ ⌊q⌋⌋`; for `0 < q < 1` it is `-⌈log₂ ⌈q⁻¹⌉⌉`. -/
def floorLog2 (q : ℚ) : ℤ :=
  if 1 ≤ q then (log2fuel q.num.toNat (q.num.toNat / q.den) : ℤ)
  else -(clog2fuel q.den ((q.den + q.num.toNat - 1) / q.num.toNat) : ℤ)

/-- Integer power of two as a rational, for integer (possibly negative)
exponents, built with `mkRat` and natural-number powers so it is
kernel-reducible. -/
def pow2z (k : ℤ) : ℚ :=
  if 0 ≤ k then mkRat (2 ^ k.toNat) 1 else mkRat 1 (2 ^ (-k).toNat)

/-- Multiplication of rationals phrased through `mkRat` so that it is
kernel-reducible; equal to `a * b` (`qmul_eq`). -/
def qmul (a b : ℚ) : ℚ :=
  mkRat (a.num * b.num) (a.den * b.den)

/-- Round a rational to the nearest integer, ties to even (the IEEE-754
default rounding used by Python floats), phrased with integer arithmetic on
the numerator and denominator: with `f = ⌊x⌋` the fractional part is
`(x.num - f * x.den) / x.den`, so it compares to `1/2` as
`2 * (x.num - f * x.den)` compares to `x.den`. -/
def roundHalfEven (x : ℚ) : ℤ :=
  let f := ⌊x⌋
  let rem2 := 2 * (x.num - f * (x.den : ℤ))
  if rem2 < (x.den : ℤ) then f
  else if (x.den : ℤ) < rem2 then f + 1
  else if f % 2 = 0 then f else f + 1

/-- Model of Python `float(x)` applied to an exact decimal/rational value:
round to 53 significant bits, nearest, ties to even.  This is the conversion
performed at src/dexscreener.py line 186 (`float(entry.get("liquidity",
{}).get("usd", 0))`) and by the JSON parser on numeric fields. -/
def pyFloat (q : ℚ) : ℚ :=
  if q = 0 then 0
  else
    let a : ℚ := if 0 < q then q else -q
    let k := floorLog2 a
    let m := roundHalfEven (qmul a (pow2z (52 - k)))
    let v := qmul (mkRat m 1) (pow2z (k - 52))
    if 0 < q then v else -v

/-- Base58 alphabet used by Solana addresses (Bitcoin alphabet:
no `0`, `O`, `I`, `l`). -/
def base58Chars : List Char :=
  "123456789ABCDEFGHJKLMNPQRSTUVWXYZabcdefghijkmnopqrstuvwxyz".toList

/-- Value of one base58 digit, `none` when the character is not in the
alphabet. -/
def b58Val (c : Char) : Option ℕ :=
  base58Chars.findIdx? (fun d => d = c)

/-- Fuel-driven byte length of a natural number (number of base-256 digits,
`0` for `0`). -/
def byteLenFuel : ℕ → ℕ → ℕ
  | 0, _ => 0
  | fuel + 1, n => if n = 0 then 0 else byteLenFuel fuel (n / 256) + 1

/-- Modelled from the spec: `utils.helpers.is_solana_address` is imported by
src/dexscreener.py but its module is not part of the sources.  The spec
(section 4.1) defines validity as: the string base58-decodes to exactly 32
bytes (the platform key type accepts any 32-byte value); the empty string is
always invalid.  Base58 decoding maps each leading `1` to a leading zero
byte and the remaining value to its big-endian base-256 digits. -/
def is_solana_address (s : String) : Bool :=
  let cs := s.toList
  if cs.all (fun c => (b58Val c).isSome) then
    let ones := (cs.takeWhile (fun c => c = '1')).length
    let v := cs.foldl (fun n c => n * 58 + ((b58Val c).getD 0)) 0
    ones + byteLenFuel v v = 32
  else false

/-- Modelled from the spec: `clients.common.PriceInfo` is imported by
src/dexscreener.py but its module is not part of the sources.  The spec
(section 3) defines it as an immutable record of a decimal price and a
decimal liquidity.  src/birdeye.py stores the same two fields in a plain
dict; both are modelled by this record. -/
structure PriceInfo where
  price : ℚ
  liquidity : ℚ
deriving DecidableEq

/-- Nested `liquidity` object of a DexScreener JSON response
(`data.get("liquidity", {}).get("usd", 0)` accesses `usd` inside it). -/
structure DexLiquidity where
  usd : Option ℚ
deriving DecidableEq

/-- JSON body returned by the DexScreener API endpoints, restricted to the
fields the client reads: `price` and `liquidity.usd`.  `none` models an
absent key (Python `dict.get` default). -/
structure DexData where
  price : Option ℚ
  liquidity : Option DexLiquidity
deriving DecidableEq

/-- Value of `data.get("liquidity", {}).get("usd", 0)`
(src/dexscreener.py line 140): missing `liquidity` object or missing `usd`
key both default to `0`. -/
def dexLiqUsd (d : DexData) : ℚ :=
  match d.liquidity with
  | none => 0
  | some l => l.usd.getD 0

/-- HTTP response of the DexScreener API as seen by the client: a status
code and a JSON body. -/
structure DexResponse where
  status : ℕ
  data : DexData

/-- Transport collaborator: maps a request URL to the response.  The URLs a
client run passes to it are recorded alongside each result, so that
"no network request is issued" is the recorded list being empty. -/
abbrev DexTransport : Type := String → DexResponse

/-- Errors raised by src/dexscreener.py, from `custom_exceptions` (module
not part of the sources; constructors follow the spec error taxonomy,
section 7).  `noPositionsError` carries the message, `invalidSolanaAddress`
the offending address, `invalidTokens` the non-200 HTTP status it reports. -/
inductive DexErr where
  | noPositionsError (msg : String)
  | invalidSolanaAddress (addr : String)
  | invalidTokens (status : ℕ)
deriving DecidableEq

/-- Embedding of `DexScreenerClient._validate_token_address`
(src/dexscreener.py lines 17-36): empty address raises `NoPositionsError`,
an address failing `is_solana_address` raises `InvalidSolanaAddress`. -/
def validate_token_address (a : String) : Except DexErr Unit :=
  if a = "" then .error (.noPositionsError "Token address cannot be empty")
  else if is_solana_address a then .ok ()
  else .error (.invalidSolanaAddress a)

/-- Loop body of `DexScreenerClient._validate_token_addresses`
(src/dexscreener.py lines 55-56): validate each address in order, first
failure wins. -/
def validateAddrList : List String → Except DexErr Unit
  | [] => .ok ()
  | a :: rest =>
    match validate_token_address a with
    | .error e => .error e
    | .ok _ => validateAddrList rest

/-- Embedding of `DexScreenerClient._validate_token_addresses`
(src/dexscreener.py lines 38-56): empty list raises `NoPositionsError`,
then each address is validated in order. -/
def validate_token_addresses (addrs : List String) : Except DexErr Unit :=
  if addrs = [] then .error (.noPositionsError "No token addresses provided")
  else validateAddrList addrs

/-- Embedding of `DexScreenerClient._call_api` (src/dexscreener.py lines
75-94): validate the single address, issue one GET request, raise
`InvalidTokens` on a non-200 status, otherwise return the JSON body.  The
second component records the URLs requested. -/
def dex_call_api (t : DexTransport) (a : String) :
    Except DexErr DexData × List String :=
  match validate_token_address a with
  | .error e => (.error e, [])
  | .ok _ =>
    let url := "https://api.dexscreener.com/v1/tokens/" ++ a
    let r := t url
    if r.status = 200 then (.ok r.data, [url])
    else (.error (.invalidTokens r.status), [url])

/-- Python-dict insertion for the `prices[token_address] = ...` assignment:
replace an existing binding of the key in place, otherwise append. -/
def dictInsert (m : List (String × PriceInfo)) (k : String) (v : PriceInfo) :
    List (String × PriceInfo) :=
  if m.any (fun p => p.1 = k) then
    m.map (fun p => if p.1 = k then (k, v) else p)
  else m ++ [(k, v)]

/-- Loop of `DexScreenerClient.fetch_prices_dex` (src/dexscreener.py lines
135-145): per address, call the API; on success store
`PriceInfo(Decimal(data.get("price", 0)), Decimal(data.get("liquidity",
{}).get("usd", 0)))`; the `except (InvalidTokens, InvalidSolanaAddress,
NoPositionsError)` clause swallows every error `_call_api` can raise and
`continue`s with the next address. -/
def dexPricesLoop (t : DexTransport) :
    List String → List (String × PriceInfo) → List String →
    List (String × PriceInfo) × List String
  | [], acc, log => (acc, log)
  | a :: rest, acc, log =>
    match dex_call_api t a with
    | (.ok d, calls) =>
      dexPricesLoop t rest (dictInsert acc a ⟨d.price.getD 0, dexLiqUsd d⟩)
        (log ++ calls)
    | (.error _, calls) => dexPricesLoop t rest acc (log ++ calls)

/-- Embedding of `DexScreenerClient.fetch_prices_dex` (src/dexscreener.py
lines 118-146): validate all addresses first, then run the per-address loop
and return the accumulated dict on the success path. -/
def fetch_prices_dex (t : DexTransport) (addrs : List String) :
    Except DexErr (List (String × PriceInfo)) × List String :=
  match validate_token_addresses addrs with
  | .error e => (.error e, [])
  | .ok _ =>
    let r := dexPricesLoop t addrs [] []
    (.ok r.1, r.2)

/-- Modelled from the spec: `clients.common.TokenOverview` is imported by
src/dexscreener.py but its module is not part of the sources; the client
constructs it directly from the JSON body (`TokenOverview(data)`,
src/dexscreener.py line 165). -/
structure TokenOverview where
  data : DexData
deriving DecidableEq

/-- Embedding of `DexScreenerClient.fetch_token_overview`
(src/dexscreener.py lines 148-167): validate the address, call the API
(which validates again), wrap the JSON body, and re-raise any error. -/
def dex_fetch_token_overview (t : DexTransport) (a : String) :
    Except DexErr TokenOverview × List String :=
  match validate_token_address a with
  | .error e => (.error e, [])
  | .ok _ =>
    match dex_call_api t a with
    | (.ok d, calls) => (.ok ⟨d⟩, calls)
    | (.error e, calls) => (.error e, calls)

/-- Modelled from the spec: `vars.constants.SOL_MINT` is imported by
src/dexscreener.py but its module is not part of the sources.  The spec
glossary defines it as the chain native wrapped-SOL mint address, which
src/run.py line 22 spells out. -/
def SOL_MINT : String := "So11111111111111111111111111111111111111112"

/-- External trading-pair record consumed by
`DexScreenerClient.find_largest_pool_with_sol`, restricted to the fields the
function reads: `entry.get("baseToken", {}).get("address")` (an `Option`,
collapsing a missing `baseToken` object and a missing `address` key),
`entry["quoteToken"]["address"]` (accessed unconditionally, hence a total
field, matching the shape the spec gives for TradingPair), and
`entry.get("liquidity", {}).get("usd", 0)` (an `Option` defaulting to 0). -/
structure TradingPair where
  baseTokenAddress : Option String
  quoteTokenAddress : String
  liquidityUsd : Option ℚ
deriving DecidableEq

/-- Qualification test of src/dexscreener.py line 185: the base token
address equals the requested address and the quote token address equals
`SOL_MINT`. -/
def qualifies (address : String) (e : TradingPair) : Bool :=
  e.baseTokenAddress = some address && e.quoteTokenAddress = SOL_MINT

/-- Value of `entry.get("liquidity", {}).get("usd", 0)` before the `float`
conversion. -/
def liqUsd (e : TradingPair) : ℚ :=
  e.liquidityUsd.getD 0

/-- Loop of `find_largest_pool_with_sol` (src/dexscreener.py lines 184-189),
parameterized by the comparison key `K` (the code uses
`fun e => pyFloat (liqUsd e)`, the `float(...)` conversion of line 186):
the accumulator is `(max_entry, max_liquidity_usd)` and a qualifying entry
replaces it exactly when its key is strictly greater. -/
def poolScan (K : TradingPair → ℚ) (address : String) :
    List TradingPair → Option TradingPair × ℚ → Option TradingPair × ℚ
  | [], acc => acc
  | e :: rest, acc =>
    if qualifies address e then
      if acc.2 < K e then poolScan K address rest (some e, K e)
      else poolScan K address rest acc
    else poolScan K address rest acc

/-- Embedding of `DexScreenerClient.find_largest_pool_with_sol`
(src/dexscreener.py lines 169-191): scan starting from
`max_entry = {}` (modelled `none`) and `max_liquidity_usd = -1`. -/
def find_largest_pool_with_sol (token_pairs : List TradingPair)
    (address : String) : Option TradingPair :=
  (poolScan (fun e => pyFloat (liqUsd e)) address token_pairs (none, -1)).1

/-- JSON body returned by the BirdEye price endpoint, restricted to the
fields src/birdeye.py reads: `price` and a flat `liquidity`. -/
structure BirdData where
  price : Option ℚ
  liquidity : Option ℚ
deriving DecidableEq

/-- HTTP response of the BirdEye API as seen by the client. -/
structure BirdResponse where
  status : ℕ
  data : BirdData

/-- Transport collaborator for the BirdEye client, with the same
URL-recording convention as `DexTransport`. -/
abbrev BirdTransport : Type := String → BirdResponse

/-- Errors raised by src/birdeye.py: `ValueError` (empty input),
`NameError` (the undefined name `PublicKey` at line 85, carrying the name),
and the generic `Exception` wrapping a failed request (carrying the token
address it names). -/
inductive BirdErr where
  | valueError (msg : String)
  | nameError (nm : String)
  | exception (tokenAddress : String)
deriving DecidableEq

/-- Loop of `BirdEyeClient.fetch_prices` (src/birdeye.py lines 53-66): per
address, issue one GET request; `raise_for_status` raises for status 400 and
above, which the `except` clause converts to a generic `Exception` naming
the token, aborting the whole call; otherwise store the price/liquidity
dict (each field defaulting to `Decimal(0)` when absent). -/
def birdPricesLoop (t : BirdTransport) :
    List String → List (String × PriceInfo) → List String →
    Except BirdErr (List (String × PriceInfo)) × List String
  | [], acc, log => (.ok acc, log)
  | a :: rest, acc, log =>
    let url := "https://api.birdeye.so/v1/tokens/" ++ a ++ "/price"
    let r := t url
    if 400 ≤ r.status then
      (.error (.exception a), log ++ [url])
    else
      birdPricesLoop t rest
        (dictInsert acc a ⟨r.data.price.getD 0, r.data.liquidity.getD 0⟩)
        (log ++ [url])

/-- Embedding of `BirdEyeClient.fetch_prices` (src/birdeye.py lines 36-67):
an empty list raises `ValueError("No tokens provided")` before any request;
no address validation of any kind is performed. -/
def bird_fetch_prices (t : BirdTransport) (addrs : List String) :
    Except BirdErr (List (String × PriceInfo)) × List String :=
  if addrs = [] then (.error (.valueError "No tokens provided"), [])
  else birdPricesLoop t addrs [] []

/-- Embedding of `BirdEyeClient.fetch_token_overview` (src/birdeye.py lines
69-95): the first executed statement is `PublicKey(address)` (line 85), but
`PublicKey` is neither imported nor defined anywhere in the module, so
evaluating it raises `NameError` for every input; the surrounding
`except ValueError` clause does not catch `NameError`, so the error
propagates before any request is issued and the rest of the body is
unreachable. -/
def bird_fetch_token_overview (_t : BirdTransport) (_a : String) :
    Except BirdErr BirdData × List String :=
  (.error (.nameError "PublicKey"), [])

/-- Spec-side pool selector, written from the words of the specification
(section 4.3): among the qualifying pairs, the selected pair is the first
one whose `liquidity.usd` (parsed as an exact decimal, missing treated as
zero) is at least every qualifying liquidity — that is, the first pair
attaining the maximum, so first-seen wins ties. -/
def largest_pool_spec (token_pairs : List TradingPair) (address : String) :
    Option TradingPair :=
  (token_pairs.filter (qualifies address)).find?
    (fun e => (token_pairs.filter (qualifies address)).all
      (fun e2 => decide (liqUsd e2 ≤ liqUsd e)))

/-- Pool selector by float-rounded liquidity: the first qualifying pair
whose `float`-converted liquidity is at least every qualifying
float-converted liquidity. -/
def largest_pool_float (token_pairs : List TradingPair) (address : String) :
    Option TradingPair :=
  (token_pairs.filter (qualifies address)).find?
    (fun e => (token_pairs.filter (qualifies address)).all
      (fun e2 => decide (pyFloat (liqUsd e2) ≤ pyFloat (liqUsd e))))

/-! Helper lemmas. -/

lemma roundHalfEven_ge_floor (x : ℚ) : ⌊x⌋ ≤ roundHalfEven x := by
  unfold roundHalfEven
  dsimp only
  split_ifs <;> omega

lemma qmul_eq (a b : ℚ) : qmul a b = a * b := by
  rw [qmul]
  conv_rhs => rw [← Rat.mkRat_self a, ← Rat.mkRat_self b]
  rw [Rat.mkRat_mul_mkRat]

lemma pow2z_nonneg (k : ℤ) : 0 ≤ pow2z k := by
  unfold pow2z
  split_ifs
  · rw [Rat.mkRat_eq_divInt]
    exact Rat.divInt_nonneg (by positivity) (by positivity)
  · rw [Rat.mkRat_eq_divInt]
    exact Rat.divInt_nonneg (by positivity) (by positivity)

lemma pyFloat_nonneg (q : ℚ) (h : 0 ≤ q) : 0 ≤ pyFloat q := by
  unfold pyFloat
  by_cases h0 : q = 0
  · simp [h0]
  · have hq : 0 < q := lt_of_le_of_ne h (Ne.symm h0)
    simp only [h0, if_false, hq, if_true]
    have hx : 0 ≤ qmul q (pow2z (52 - floorLog2 q)) := by
      rw [qmul_eq]
      exact mul_nonneg h (pow2z_nonneg _)
    have hm : (0 : ℤ) ≤ roundHalfEven (qmul q (pow2z (52 - floorLog2 q))) :=
      le_trans (Int.floor_nonneg.mpr hx) (roundHalfEven_ge_floor _)
    rw [qmul_eq, Rat.mkRat_one]
    exact mul_nonneg (by exact_mod_cast hm) (pow2z_nonneg _)

lemma find?_congr {α : Type} (p q : α → Bool) :
    ∀ l : List α, (∀ x ∈ l, p x = q x) → l.find? p = l.find? q := by
  intro l
  induction l with
  | nil => intro _; rfl
  | cons a l ih =>
    intro h
    have ha := h a (List.mem_cons_self a l)
    by_cases hq : q a = true
    · rw [List.find?_cons_of_pos l (ha ▸ hq), List.find?_cons_of_pos l hq]
    · rw [List.find?_cons_of_neg l (fun hc => hq (ha ▸ hc)),
        List.find?_cons_of_neg l hq]
      exact ih (fun x hx => h x (List.mem_cons_of_mem a hx))

/-- Characterization of the scan of `find_largest_pool_with_sol`: starting
from accumulator `(b, m)`, if some qualifying entry has key above `m`, the
scan returns the first qualifying entry whose key is at least every
qualifying key (first maximum, first-seen wins ties); otherwise the
accumulator entry is kept. -/
lemma poolScan_spec (K : TradingPair → ℚ) (address : String) :
    ∀ (l : List TradingPair) (b : Option TradingPair) (m : ℚ),
      (poolScan K address l (b, m)).1 =
        if (l.filter (qualifies address)).any (fun e => decide (m < K e)) then
          (l.filter (qualifies address)).find?
            (fun e => (l.filter (qualifies address)).all
              (fun e2 => decide (K e2 ≤ K e)))
        else b := by
  intro l
  induction l with
  | nil => intro b m; simp [poolScan]
  | cons e r ih =>
    intro b m
    by_cases hq : qualifies address e = true
    · rw [List.filter_cons_of_pos hq]
      by_cases hlt : m < K e
      · have hstep : (poolScan K address (e :: r) (b, m)).1 =
            (poolScan K address r (some e, K e)).1 := by
          simp [poolScan, hq, hlt]
        rw [hstep, ih (some e) (K e)]
        have hany : ((e :: r.filter (qualifies address)).any
            (fun x => decide (m < K x))) = true := by
          simp only [List.any_cons, Bool.or_eq_true, decide_eq_true_eq]
          exact Or.inl hlt
        rw [if_pos hany]
        by_cases h2 : (r.filter (qualifies address)).any
            (fun x => decide (K e < K x)) = true
        · rw [if_pos h2]
          obtain ⟨w, hw, hwlt⟩ := List.any_eq_true.mp h2
          have hwlt : K e < K w := of_decide_eq_true hwlt
          have hskip : ((e :: r.filter (qualifies address)).all
              (fun e2 => decide (K e2 ≤ K e))) = false := by
            apply List.all_eq_false.mpr
            exact ⟨w, List.mem_cons_of_mem e hw, by simp [not_le.mpr hwlt]⟩
          rw [List.find?_cons_of_neg _ (by simp [hskip])]
          apply find?_congr
          intro x hx
          simp only [List.all_cons]
          cases hax : (r.filter (qualifies address)).all
              (fun e2 => decide (K e2 ≤ K x)) with
          | false => simp
          | true =>
            have hex : K e ≤ K x :=
              le_trans (le_of_lt hwlt)
                (of_decide_eq_true (List.all_eq_true.mp hax w hw))
            simp [decide_eq_true hex]
        · rw [if_neg h2]
          have hall : ((e :: r.filter (qualifies address)).all
              (fun e2 => decide (K e2 ≤ K e))) = true := by
            simp only [List.all_cons, Bool.and_eq_true, decide_eq_true_eq]
            refine ⟨le_refl _, ?_⟩
            apply List.all_eq_true.mpr
            intro x hx
            have hxle := List.any_eq_false.mp (Bool.not_eq_true _ ▸ h2) x hx
            simp only [decide_eq_true_eq] at hxle ⊢
            exact le_of_not_lt hxle
          have hfind : List.find?
              (fun e1 => (e :: r.filter (qualifies address)).all
                (fun e2 => decide (K e2 ≤ K e1)))
              (e :: r.filter (qualifies address)) = some e :=
            List.find?_cons_of_pos _ hall
          exact hfind.symm
      · have hstep : (poolScan K address (e :: r) (b, m)).1 =
            (poolScan K address r (b, m)).1 := by
          simp [poolScan, hq, hlt]
        rw [hstep, ih b m]
        have hle : K e ≤ m := le_of_not_lt hlt
        have hany : ((e :: r.filter (qualifies address)).any
              (fun x => decide (m < K x)))
            = (r.filter (qualifies address)).any (fun x => decide (m < K x)) := by
          simp only [List.any_cons, decide_eq_false hlt, Bool.false_or]
        rw [hany]
        by_cases h2 : (r.filter (qualifies address)).any
            (fun x => decide (m < K x)) = true
        · rw [if_pos h2, if_pos h2]
          obtain ⟨w, hw, hwlt⟩ := List.any_eq_true.mp h2
          have hwlt : m < K w := of_decide_eq_true hwlt
          have helt : K e < K w := lt_of_le_of_lt hle hwlt
          have hskip : ((e :: r.filter (qualifies address)).all
              (fun e2 => decide (K e2 ≤ K e))) = false := by
            apply List.all_eq_false.mpr
            exact ⟨w, List.mem_cons_of_mem e hw, by simp [not_le.mpr helt]⟩
          rw [List.find?_cons_of_neg _ (by simp [hskip])]
          apply find?_congr
          intro x hx
          simp only [List.all_cons]
          cases hax : (r.filter (qualifies address)).all
              (fun e2 => decide (K e2 ≤ K x)) with
          | false => simp
          | true =>
            have hex : K e ≤ K x :=
              le_trans (le_of_lt helt)
                (of_decide_eq_true (List.all_eq_true.mp hax w hw))
            simp [decide_eq_true hex]
        · rw [if_neg h2, if_neg h2]
    · rw [List.filter_cons_of_neg hq]
      have hstep : (poolScan K address (e :: r) (b, m)).1 =
          (poolScan K address r (b, m)).1 := by
        simp [poolScan, hq]
      rw [hstep, ih b m]

/-- The scan only looks at the key of entries of the list, so two keys that
agree on the list give the same scan. -/
lemma poolScan_congr (K1 K2 : TradingPair → ℚ) (address : String) :
    ∀ (l : List TradingPair) (acc : Option TradingPair × ℚ),
      (∀ e ∈ l, K1 e = K2 e) →
      poolScan K1 address l acc = poolScan K2 address l acc := by
  intro l
  induction l with
  | nil => intro acc _; rfl
  | cons e r ih =>
    intro acc h
    have he := h e (List.mem_cons_self e r)
    have hr : ∀ x ∈ r, K1 x = K2 x := fun x hx => h x (List.mem_cons_of_mem e hx)
    by_cases hq : qualifies address e = true
    · simp only [poolScan, hq, if_true, he]
      split_ifs with h1
      · exact ih _ hr
      · exact ih _ hr
    · simp only [poolScan, hq, if_false]
      exact ih _ hr

/-- Every non-empty list has a first entry attaining the maximum key. -/
lemma exists_attainsMax (K : TradingPair → ℚ) :
    ∀ l : List TradingPair, l ≠ [] → ∃ e ∈ l, ∀ x ∈ l, K x ≤ K e := by
  intro l
  induction l with
  | nil => intro h; exact absurd rfl h
  | cons a r ih =>
    intro _
    by_cases hr : r = []
    · subst hr
      exact ⟨a, List.mem_cons_self a [], by
        intro x hx
        rw [List.mem_singleton.mp hx]⟩
    · obtain ⟨e, he, hmax⟩ := ih hr
      by_cases hc : K e ≤ K a
      · refine ⟨a, List.mem_cons_self a r, ?_⟩
        intro x hx
        rcases List.mem_cons.mp hx with hx | hx
        · rw [hx]
        · exact le_trans (hmax x hx) hc
      · refine ⟨e, List.mem_cons_of_mem a he, ?_⟩
        intro x hx
        rcases List.mem_cons.mp hx with hx | hx
        · rw [hx]; exact le_of_not_le hc
        · exact hmax x hx

/-- The validation loop of `_validate_token_addresses` fails on the first
address that is empty or not a valid Solana address; when that first
failing address is non-empty, the error is `InvalidSolanaAddress` naming
it. -/
lemma validateAddrList_first_invalid :
    ∀ (l : List String) (a : String),
      l.find? (fun x => decide (x = "") || !is_solana_address x) = some a →
      a ≠ "" → validateAddrList l = .error (.invalidSolanaAddress a) := by
  intro l
  induction l with
  | nil => intro a h _; simp [List.find?] at h
  | cons x r ih =>
    intro a h ha
    by_cases hp : (decide (x = "") || !is_solana_address x) = true
    · rw [List.find?_cons_of_pos
        (p := fun y => decide (y = "") || !is_solana_address y) r hp] at h
      have hxa : x = a := Option.some_injective _ h
      subst hxa
      have hval : is_solana_address x = false := by
        cases hv : is_solana_address x
        · rfl
        · rw [hv] at hp; simp [ha] at hp
      simp [validateAddrList, validate_token_address, ha, hval]
    · rw [List.find?_cons_of_neg
        (p := fun y => decide (y = "") || !is_solana_address y) r hp] at h
      have hxe : ¬(x = "") := fun hx => hp (by simp [hx])
      have hval : is_solana_address x = true := by
        cases hv : is_solana_address x
        · exact absurd (by simp [hv]) hp
        · rfl
      simp only [validateAddrList, validate_token_address, if_neg hxe,
        hval, if_true]
      exact ih a h ha

/-! Concrete inputs used by the claim theorems. -/

/-- The Solana system-program address: 32 leading base58 ones decode to the
32-byte all-zero key, so it is a valid address. -/
def zeroAddr : String := "11111111111111111111111111111111"

/-- Qualifying pair with liquidity `0.1` (exact decimal). -/
def pairTenth : TradingPair := ⟨some "A", SOL_MINT, some (mkRat 1 10)⟩

/-- Qualifying pair with exact decimal liquidity `0.10000000000000001`,
strictly larger than `0.1` but rounding to the same binary64 float. -/
def pairTenthPlus : TradingPair :=
  ⟨some "A", SOL_MINT, some (mkRat 10000000000000001 100000000000000000)⟩

/-- Qualifying pair with liquidity 100 (spec section 8 example). -/
def pairLiq100 : TradingPair := ⟨some "A", SOL_MINT, some 100⟩

/-- Qualifying pair with liquidity 500 (spec section 8 example). -/
def pairLiq500 : TradingPair := ⟨some "A", SOL_MINT, some 500⟩

/-- Pair quoted in a non-SOL token with liquidity 9000
(spec section 8 example). -/
def pairOther : TradingPair := ⟨some "A", "OTHER", some 9000⟩

/-- Qualifying pair with no liquidity object at all. -/
def pairNoLiq : TradingPair := ⟨some "A", SOL_MINT, none⟩

/-- Pair whose base token does not match the requested address. -/
def pairWrongBase : TradingPair := ⟨some "B", SOL_MINT, some 5⟩

/-! Claim theorems. -/

/-- C1: the claim states that a successful `fetch_prices` call covers every
requested address and that the call fails as a whole when any entry cannot
be populated.  The code violates this: with two valid addresses where the
provider answers 200 for the first and 500 for the second,
`fetch_prices_dex` swallows the `InvalidTokens` error of the second address
and returns a partial map holding only the first one via the success path,
while both network requests were issued. -/
theorem fetch_prices_dex_returns_partial_map :
    fetch_prices_dex
      (fun url =>
        if url = "https://api.dexscreener.com/v1/tokens/So11111111111111111111111111111111111111112"
        then ⟨200, ⟨some 3, some ⟨some 7⟩⟩⟩ else ⟨500, ⟨none, none⟩⟩)
      [SOL_MINT, zeroAddr]
    = (.ok [(SOL_MINT, ⟨3, 7⟩)],
        ["https://api.dexscreener.com/v1/tokens/So11111111111111111111111111111111111111112",
          "https://api.dexscreener.com/v1/tokens/11111111111111111111111111111111"]) := by
  decide

/-- C2: the claim states that when the provider responds successfully but a
requested address lacks the required data, the call fails with
`InvalidToken` naming that address.  The code violates this: on a 200
response whose body has neither `price` nor `liquidity`, the entry is
populated with defaulted zero values and the call succeeds. -/
theorem fetch_prices_dex_defaults_missing_fields :
    fetch_prices_dex (fun _ => ⟨200, ⟨none, none⟩⟩) [zeroAddr]
    = (.ok [(zeroAddr, ⟨0, 0⟩)],
        ["https://api.dexscreener.com/v1/tokens/11111111111111111111111111111111"]) := by
  decide

/-- C3: `find_largest_pool_with_sol` qualifies exactly the pairs whose base
token address equals the requested address and whose quote token address
equals `SOL_MINT`, and among qualifying pairs returns the first one whose
liquidity (missing treated as zero) is at least every qualifying liquidity:
the maximum, first-seen winning ties because the comparison is strict.
Stated for liquidity values that are non-negative and exactly representable
as binary64 floats, which is the case for all values the function receives
from JSON-decoded responses. -/
theorem find_largest_pool_with_sol_selects_first_max
    (pairs : List TradingPair) (address : String)
    (h0 : ∀ e ∈ pairs, 0 ≤ liqUsd e)
    (h1 : ∀ e ∈ pairs, pyFloat (liqUsd e) = liqUsd e) :
    find_largest_pool_with_sol pairs address = largest_pool_spec pairs address := by
  unfold find_largest_pool_with_sol largest_pool_spec
  rw [poolScan_congr (fun e => pyFloat (liqUsd e)) liqUsd address pairs _ h1,
    poolScan_spec]
  by_cases hqs : pairs.filter (qualifies address) = []
  · rw [hqs]
    simp
  · obtain ⟨e0, he0⟩ := List.exists_mem_of_ne_nil _ hqs
    have he0p : e0 ∈ pairs := List.mem_of_mem_filter he0
    have hpos : (-1 : ℚ) < liqUsd e0 :=
      lt_of_lt_of_le (by norm_num) (h0 _ he0p)
    have hany : (pairs.filter (qualifies address)).any
        (fun e => decide ((-1 : ℚ) < liqUsd e)) = true :=
      List.any_eq_true.mpr ⟨e0, he0, decide_eq_true hpos⟩
    rw [if_pos hany]

/-- C3 witness: the spec section 8 example — pairs with qualifying
liquidities 100 and 500 and a non-SOL-quoted pair with liquidity 9000 —
selects the liquidity-500 entry. -/
theorem find_largest_pool_with_sol_selects_first_max_witness :
    largest_pool_spec [pairLiq100, pairLiq500, pairOther] "A" = some pairLiq500 ∧
    find_largest_pool_with_sol [pairLiq100, pairLiq500, pairOther] "A" = some pairLiq500 :=
  ⟨by decide,
    (find_largest_pool_with_sol_selects_first_max
      [pairLiq100, pairLiq500, pairOther] "A" (by decide) (by decide)).trans
      (by decide)⟩

/-- C4 counterexample: the claim states that a `fetch_prices` input holding
an address that fails chain-address validation fails with `InvalidAddress`
before any network request.  `BirdEyeClient.fetch_prices` refutes it: on the
invalid address `"not-an-address"` it issues a network request (the recorded
URL list is non-empty) and, when the provider answers 200, even returns a
successful price map instead of any error. -/
theorem birdeye_fetch_prices_no_validation :
    is_solana_address "not-an-address" = false ∧
    bird_fetch_prices (fun _ => ⟨200, ⟨some 1, some 2⟩⟩) ["not-an-address"]
      = (.ok [("not-an-address", ⟨1, 2⟩)],
          ["https://api.birdeye.so/v1/tokens/not-an-address/price"]) :=
  ⟨by decide, by decide⟩

/-- C4 (amended): for `DexScreenerClient.fetch_prices_dex` the claim holds —
when the first address failing validation is non-empty, the call fails with
`InvalidSolanaAddress` naming it and no network request is recorded (an
empty-string address instead fails with `NoPositionsError`, and
`BirdEyeClient.fetch_prices` performs no validation at all, per the
counterexample). -/
theorem fetch_prices_dex_invalid_address_before_network
    (t : DexTransport) (addrs : List String) (a : String)
    (h1 : addrs.find? (fun x => decide (x = "") || !is_solana_address x) = some a)
    (h2 : a ≠ "") :
    fetch_prices_dex t addrs = (.error (.invalidSolanaAddress a), []) := by
  have hne : addrs ≠ [] := by
    intro hnil
    rw [hnil] at h1
    simp [List.find?] at h1
  unfold fetch_prices_dex validate_token_addresses
  rw [if_neg hne, validateAddrList_first_invalid addrs a h1 h2]

/-- C4 witness: a list holding the valid SOL mint followed by
`"not-an-address"` fails with `InvalidSolanaAddress "not-an-address"` and
records no request. -/
theorem fetch_prices_dex_invalid_address_before_network_witness :
    fetch_prices_dex (fun _ => ⟨200, ⟨none, none⟩⟩) [SOL_MINT, "not-an-address"]
      = (.error (.invalidSolanaAddress "not-an-address"), []) :=
  fetch_prices_dex_invalid_address_before_network _ _ "not-an-address"
    (by decide) (by decide)

/-- C5: the claim states that `fetch_token_overview` on a malformed address
fails with `InvalidAddress` on both providers.  The DexScreener client does
(`InvalidSolanaAddress` naming the address, no request recorded), but the
BirdEye client instead raises `NameError` for the undefined name
`PublicKey` (src/birdeye.py line 85: `PublicKey` is never imported), which
its `except ValueError` clause cannot catch, so the promised
`InvalidAddress` error is unreachable. -/
theorem fetch_token_overview_malformed_address :
    dex_fetch_token_overview (fun _ => ⟨200, ⟨none, none⟩⟩) "not-an-address"
      = (.error (.invalidSolanaAddress "not-an-address"), []) ∧
    bird_fetch_token_overview (fun _ => ⟨200, ⟨none, none⟩⟩) "not-an-address"
      = (.error (.nameError "PublicKey"), []) :=
  ⟨by decide, rfl⟩

/-- C6: `fetch_prices` on the empty address list fails before any network
request on both providers: `NoPositionsError` (DexScreener) and
`ValueError` (BirdEye), the two concrete spellings of the spec error
`NoAddressesProvided`, with no request recorded. -/
theorem fetch_prices_empty_fails (t : DexTransport) (u : BirdTransport) :
    fetch_prices_dex t []
      = (.error (.noPositionsError "No token addresses provided"), []) ∧
    bird_fetch_prices u [] = (.error (.valueError "No tokens provided"), []) :=
  ⟨rfl, rfl⟩

/-- C7 counterexample: the claim states that binary floating point is never
used in parsing or financial comparisons.  The liquidity comparison of
`find_largest_pool_with_sol` refutes it: the exact decimals `0.1` and
`0.10000000000000001` are distinct (the second strictly larger), yet they
convert to the same binary64 float, so the scan treats them as equal and
returns the first pair, while selection by exact decimal maximum returns
the second. -/
theorem find_largest_pool_float_conflation :
    liqUsd pairTenth < liqUsd pairTenthPlus ∧
    pyFloat (liqUsd pairTenth) = pyFloat (liqUsd pairTenthPlus) ∧
    find_largest_pool_with_sol [pairTenth, pairTenthPlus] "A" = some pairTenth ∧
    largest_pool_spec [pairTenth, pairTenthPlus] "A" = some pairTenthPlus :=
  ⟨by decide, by decide, by decide, by decide⟩

/-- C7 (amended): the prices and liquidities of `fetch_prices_dex` are
`Decimal` values obtained from JSON fields that the JSON parser has already
read as binary64 floats (no string intermediate), and the liquidity
comparison of `find_largest_pool_with_sol` is performed on `float`-converted
values: for non-negative liquidities the selected pool is the first
qualifying pool attaining the maximum float-rounded liquidity, which can
differ from the exact-decimal maximum (see the counterexample). -/
theorem find_largest_pool_float_semantics
    (pairs : List TradingPair) (address : String)
    (h0 : ∀ e ∈ pairs, 0 ≤ liqUsd e) :
    find_largest_pool_with_sol pairs address = largest_pool_float pairs address := by
  unfold find_largest_pool_with_sol largest_pool_float
  rw [poolScan_spec]
  by_cases hqs : pairs.filter (qualifies address) = []
  · rw [hqs]
    simp
  · obtain ⟨e0, he0⟩ := List.exists_mem_of_ne_nil _ hqs
    have he0p : e0 ∈ pairs := List.mem_of_mem_filter he0
    have hpos : (-1 : ℚ) < pyFloat (liqUsd e0) :=
      lt_of_lt_of_le (by norm_num) (pyFloat_nonneg _ (h0 _ he0p))
    have hany : (pairs.filter (qualifies address)).any
        (fun e => decide ((-1 : ℚ) < pyFloat (liqUsd e))) = true :=
      List.any_eq_true.mpr ⟨e0, he0, decide_eq_true hpos⟩
    rw [if_pos hany]

/-- C7 amended-claim witness: on the two conflating pairs the scan agrees
with selection by float-rounded maximum. -/
theorem find_largest_pool_float_semantics_witness :
    find_largest_pool_with_sol [pairTenth, pairTenthPlus] "A"
      = largest_pool_float [pairTenth, pairTenthPlus] "A" :=
  find_largest_pool_float_semantics [pairTenth, pairTenthPlus] "A" (by decide)

/-- C8: when no pair qualifies, `find_largest_pool_with_sol` returns the
empty "no match" value (`max_entry` stays `{}`, modelled `none`) rather
than raising an error — the embedded function is total and evaluates to
`none`. -/
theorem find_largest_pool_no_match
    (pairs : List TradingPair) (address : String)
    (h : ∀ e ∈ pairs, qualifies address e = false) :
    find_largest_pool_with_sol pairs address = none := by
  unfold find_largest_pool_with_sol
  rw [poolScan_spec]
  have hqs : pairs.filter (qualifies address) = [] :=
    List.filter_eq_nil_iff.mpr (fun a ha => by simp [h a ha])
  rw [hqs]
  simp

/-- C8 witness: a single pair with a non-matching base token yields
`none`. -/
theorem find_largest_pool_no_match_witness :
    find_largest_pool_with_sol [pairWrongBase] "A" = none :=
  find_largest_pool_no_match [pairWrongBase] "A" (by decide)

/-- C9: `BirdEyeClient.fetch_token_overview` raises `NameError` for the
undefined name `PublicKey` on every input, well-formed or not, before any
HTTP request is issued (the recorded URL list is empty), so it can never
return a successful result. -/
theorem birdeye_overview_always_nameerror (t : BirdTransport) (a : String) :
    bird_fetch_token_overview t a = (.error (.nameError "PublicKey"), []) :=
  rfl

/-- C10: for non-negative liquidities (the USD liquidity domain),
`find_largest_pool_with_sol` returns a non-empty result exactly when some
pair qualifies: the running maximum starts at `-1` and the comparison is
strict, so a qualifying pair with zero or missing liquidity still replaces
the initial empty entry. -/
theorem find_largest_pool_isSome_iff_qualifying
    (pairs : List TradingPair) (address : String)
    (h0 : ∀ e ∈ pairs, 0 ≤ liqUsd e) :
    (find_largest_pool_with_sol pairs address).isSome = true ↔
      ∃ e ∈ pairs, qualifies address e = true := by
  unfold find_largest_pool_with_sol
  rw [poolScan_spec]
  by_cases hqs : pairs.filter (qualifies address) = []
  · rw [hqs]
    simp only [List.any_nil, if_false, Option.isSome_none, Bool.false_eq_true,
      false_iff]
    intro ⟨e, he, hqe⟩
    exact absurd hqe (List.filter_eq_nil_iff.mp hqs e he)
  · obtain ⟨e0, he0⟩ := List.exists_mem_of_ne_nil _ hqs
    have he0p : e0 ∈ pairs := List.mem_of_mem_filter he0
    have hq0 : qualifies address e0 = true := (List.mem_filter.mp he0).2
    have hpos : (-1 : ℚ) < pyFloat (liqUsd e0) :=
      lt_of_lt_of_le (by norm_num) (pyFloat_nonneg _ (h0 _ he0p))
    have hany : (pairs.filter (qualifies address)).any
        (fun e => decide ((-1 : ℚ) < pyFloat (liqUsd e))) = true :=
      List.any_eq_true.mpr ⟨e0, he0, decide_eq_true hpos⟩
    rw [if_pos hany]
    obtain ⟨em, hem, hmax⟩ :=
      exists_attainsMax (fun e => pyFloat (liqUsd e)) _ hqs
    have hfind : ((pairs.filter (qualifies address)).find?
        (fun e => (pairs.filter (qualifies address)).all
          (fun e2 => decide (pyFloat (liqUsd e2) ≤ pyFloat (liqUsd e))))).isSome := by
      rw [List.find?_isSome]
      refine ⟨em, hem, ?_⟩
      apply List.all_eq_true.mpr
      intro x hx
      exact decide_eq_true (hmax x hx)
    exact iff_of_true hfind ⟨e0, he0p, hq0⟩

/-- C10 witness: a single qualifying pair with no liquidity object is still
selected. -/
theorem find_largest_pool_isSome_iff_qualifying_witness :
    (find_largest_pool_with_sol [pairNoLiq] "A").isSome = true :=
  (find_largest_pool_isSome_iff_qualifying [pairNoLiq] "A" (by decide)).mpr
    ⟨pairNoLiq, by decide, by decide⟩
